import Mathlib

/-!
Verification of the ABC (multiplicative-relationship) proof of the zksigma
library, `src/abc.go`: the prover `NewABCProof` and the verifier
`ABCProof.Verify`, embedded shallowly over a generic model of the
elliptic-curve group, and theorems settling the specified properties.
-/

namespace ZKSigma

/-- Side of a disjunctive statement (`Left` / `Right`), part of the zksigma API
declared outside `src/abc.go` and used by `NewABCProof` (src/abc.go:60). -/
inductive Side where
  | Left
  | Right
deriving DecidableEq

/-- Modelled from the spec: a curve-group element.  The spec (section 6) treats
the elliptic-curve group as an external collaborator: a group of prime order N
with fixed generators G and H whose mutual discrete logarithm is unknown.  We
embed the group generically as formal coordinates over the basis (G, H): the
point `a·G + b·H` is `⟨a, b⟩`.  Everything `NewABCProof` and `Verify` compute is
a linear combination of G, H and their point inputs, so all their points stay
inside this module, and point equality is coordinate equality (no relation
between G and H is available to the algorithms). -/
@[ext]
structure ECPoint (n : ℕ) where
  g : ZMod n
  h : ZMod n
deriving DecidableEq

namespace ECPoint

/-- Modelled from the spec: point addition (collaborator `Add`). -/
def Add {n : ℕ} (p q : ECPoint n) : ECPoint n := ⟨p.g + q.g, p.h + q.h⟩

/-- Modelled from the spec: point subtraction (collaborator `Sub`). -/
def Sub {n : ℕ} (p q : ECPoint n) : ECPoint n := ⟨p.g - q.g, p.h - q.h⟩

/-- Modelled from the spec: scalar multiplication (collaborator `Scale`).  The
scalar is an arbitrary `big.Int`; on a group of order n it acts through its
residue mod n (spec section 9 relies on exactly this). -/
def Mult {n : ℕ} (p : ECPoint n) (s : ℤ) : ECPoint n :=
  ⟨(s : ZMod n) * p.g, (s : ZMod n) * p.h⟩

/-- Modelled from the spec: exact point equality (collaborator `Equal`). -/
def Equal {n : ℕ} (p q : ECPoint n) : Bool := decide (p = q)

end ECPoint

namespace ZKCurve

/-- Modelled from the spec: the fixed generator G of the process-wide group
context (`ZKCurve.G`). -/
def G (n : ℕ) : ECPoint n := ⟨1, 0⟩

/-- Modelled from the spec: the second fixed generator H (`ZKCurve.H`). -/
def H (n : ℕ) : ECPoint n := ⟨0, 1⟩

end ZKCurve

/-- Modelled from the spec: the Pedersen commitment helper
`PedCommitR(value, randomness) = value·G + randomness·H` (spec section 6). -/
def PedCommitR (n : ℕ) (value randomness : ℤ) : ECPoint n :=
  ⟨(value : ZMod n), (randomness : ZMod n)⟩

/-- Modelled from the spec: `math/big`'s `ModInverse` as this code base uses it:
the multiplicative inverse of `g` modulo `n` — the unique scalar x in [0, n)
with g·x ≡ 1 (mod n) — when `g` is invertible mod `n`, and the scalar `0`
otherwise.  In particular `inverse(0) = 0`, the zero-inverse convention that
the spec (sections 4.1 and 9) and the code's own comment (src/abc.go:17)
document as load-bearing for the Left branch.  (The inverse is located by
bounded search so that the definition evaluates inside the kernel; uniqueness
of the inverse mod n makes this extensionally the library function.) -/
def ModInverse (g : ℤ) (n : ℕ) : ℤ :=
  ((((List.range n).find? fun x : ℕ => (g * (x : ℤ)) % (n : ℤ) == 1 % (n : ℤ)).getD 0 : ℕ) : ℤ)

/-- The distinct failure kinds of `src/abc.go` (spec section 7).  Go returns
them as `error` values (`errorProof` carries source and message strings); we
enumerate them, one constructor per distinct error site:
`randomnessError` for a failed `rand.Int` (src/abc.go:64-85), `invalidInput`
for "invalid side-value pair passed" (src/abc.go:116), `subProofError` for a
failed disjunctive sub-proof (src/abc.go:120 and 186), `challengeMismatch` for
"proof contains incorrect challenge" (src/abc.go:196), `equationOneMismatch`
for "cCM + T1 != jG + kCMTok" (src/abc.go:212) and `equationTwoMismatch` for
"cC + T2 != jB + lH" (src/abc.go:224). -/
inductive ABCError where
  | randomnessError
  | invalidInput
  | subProofError
  | challengeMismatch
  | equationOneMismatch
  | equationTwoMismatch
deriving DecidableEq

/-- Modelled from the spec: the Fiat-Shamir hash-to-scalar `GenerateChallenge`
(external collaborator, spec section 6): a deterministic function of the
ordered list of points (byte encodings are canonical, so it factors through the
points), output reduced mod N, hence a natural number. -/
abbrev ChallengeFn (n : ℕ) := List (ECPoint n) → ℕ

/-- Modelled from the spec: `NewDisjunctiveProof` (external collaborator, spec
section 6): from the two statement points, the two bases, a witness scalar and
a side, produce a sub-proof or fail (`none` models a nil result with a non-nil
error). -/
abbrev DisjGenFn (n : ℕ) (DP : Type) :=
  ECPoint n → ECPoint n → ECPoint n → ECPoint n → ℤ → Side → Option DP

/-- Modelled from the spec: `DisjunctiveProof.Verify` (external collaborator):
a total check of a (possibly absent) sub-proof against the statement points and
bases; `false` models a non-nil status. -/
abbrev DisjVerifyFn (n : ℕ) (DP : Type) :=
  Option DP → ECPoint n → ECPoint n → ECPoint n → ECPoint n → Bool

/-- The proof artifact (src/abc.go:43-54).  The scalar fields are `big.Int`s,
embedded as unbounded integers; `disjuncAC` is `none` when the Go pointer is
nil. -/
structure ABCProof (n : ℕ) (DP : Type) where
  B : ECPoint n
  C : ECPoint n
  T1 : ECPoint n
  T2 : ECPoint n
  Challenge : ℤ
  j : ℤ
  k : ℤ
  l : ℤ
  CToken : ECPoint n
  disjuncAC : Option DP
deriving DecidableEq

/-- The Go zero value `&ABCProof{}` returned on the failure paths of
`NewABCProof` (src/abc.go:116 and 120): zero points, zero scalars, nil
sub-proof pointer. -/
def ABCProof.empty {n : ℕ} {DP : Type} : ABCProof n DP :=
  ⟨⟨0, 0⟩, ⟨0, 0⟩, ⟨0, 0⟩, ⟨0, 0⟩, 0, 0, 0, 0, ⟨0, 0⟩, none⟩

/-- The Fiat-Shamir challenge over (G, H, CM, CMTok, B, C, T1, T2) of a proof,
exactly as recomputed by the verifier (src/abc.go:189-192); the prover hashes
the same tuple (src/abc.go:141-144). -/
def recomputedChallenge {n : ℕ} {DP : Type} (hash : ChallengeFn n)
    (p : ABCProof n DP) (CM CMTok : ECPoint n) : ℤ :=
  (hash [ZKCurve.G n, ZKCurve.H n, CM, CMTok, p.B, p.C, p.T1, p.T2] : ℤ)

/-- Lines 123-167 of src/abc.go: T1 = u1·G + u2·CMTok, T2 = u1·B + u3·H, the
Fiat-Shamir challenge, and the responses j, k, l assembled into the returned
proof.  `j` and `k` are reduced mod N (src/abc.go:148 and 154, `big.Int.Mod`
is Euclidean, matching `Int.emod` for a positive modulus); `l` is not reduced
(src/abc.go:158). -/
def finishABC {n : ℕ} {DP : Type} (hash : ChallengeFn n) (CM CMTok : ECPoint n)
    (value sk : ℤ) (B C CToken : ECPoint n) (dp : DP) (u1 u2 u3 ub uc : ℤ) :
    ABCProof n DP :=
  let T1 := ((ZKCurve.G n).Mult u1).Add (CMTok.Mult u2)
  let T2 := (B.Mult u1).Add ((ZKCurve.H n).Mult u3)
  let Challenge : ℤ := (hash [ZKCurve.G n, ZKCurve.H n, CM, CMTok, B, C, T1, T2] : ℤ)
  let j : ℤ := (u1 + value * Challenge) % (n : ℤ)
  let isk : ℤ := ModInverse sk n
  let k : ℤ := (u2 + isk * Challenge) % (n : ℤ)
  let l : ℤ := u3 + (uc - value * ub) * Challenge
  ⟨B, C, T1, T2, Challenge, j, k, l, CToken, some dp⟩

/-- The body of `NewABCProof` once the five random scalars u1, u2, u3, ub, uc
are in hand (src/abc.go:87-169): compute CToken, select the branch on
(option, value), build B and C, call the disjunctive sub-proof generator, and
finish the proof; an inconsistent (option, value) pair returns the empty proof
with the invalid-input error (src/abc.go:115-117), a failed sub-proof
generation the empty proof with the sub-proof error (src/abc.go:119-121). -/
def newABCBody {n : ℕ} {DP : Type} (hash : ChallengeFn n) (dgen : DisjGenFn n DP)
    (CM CMTok : ECPoint n) (value sk : ℤ) (option : Side)
    (u1 u2 u3 ub uc : ℤ) (rest : List ℤ) :
    (Option (ABCProof n DP) × Option ABCError) × List ℤ :=
  let CToken := ((ZKCurve.H n).Mult sk).Mult uc
  if option = Side.Left ∧ value = 0 then
    let B := PedCommitR n (ModInverse 0 n) ub
    let C := PedCommitR n 0 uc
    match dgen CM CMTok (ZKCurve.H n) (C.Sub (ZKCurve.G n)) sk Side.Left with
    | none => ((some ABCProof.empty, some ABCError.subProofError), rest)
    | some dp =>
        ((some (finishABC hash CM CMTok value sk B C CToken dp u1 u2 u3 ub uc), none), rest)
  else if option = Side.Right ∧ value ≠ 0 then
    let B := PedCommitR n (ModInverse value n) ub
    let C := PedCommitR n 1 uc
    match dgen CM CMTok (ZKCurve.H n) (C.Sub (ZKCurve.G n)) uc Side.Right with
    | none => ((some ABCProof.empty, some ABCError.subProofError), rest)
    | some dp =>
        ((some (finishABC hash CM CMTok value sk B C CToken dp u1 u2 u3 ub uc), none), rest)
  else
    ((some ABCProof.empty, some ABCError.invalidInput), rest)

/-- `NewABCProof` (src/abc.go:60-169).  The `crypto/rand` source is embedded as
a stream of pre-drawn scalars: each of the five `rand.Int` calls
(src/abc.go:64-85) takes the head of the stream, and an exhausted stream models
entropy failure (`return nil, err`).  The unconsumed tail of the stream is
returned alongside the Go results so that randomness consumption is
observable. -/
def NewABCProof {n : ℕ} {DP : Type} (hash : ChallengeFn n) (dgen : DisjGenFn n DP)
    (CM CMTok : ECPoint n) (value sk : ℤ) (option : Side) (rng : List ℤ) :
    (Option (ABCProof n DP) × Option ABCError) × List ℤ :=
  match rng with
  | u1 :: u2 :: u3 :: ub :: uc :: rest =>
      newABCBody hash dgen CM CMTok value sk option u1 u2 u3 ub uc rest
  | _ => ((none, some ABCError.randomnessError), [])

/-- `ABCProof.Verify` (src/abc.go:180-228): check the embedded disjunctive
sub-proof against (CM, CMTok, H, C − G), recompute and compare the Fiat-Shamir
challenge, then check the two linear equations, short-circuiting with the
distinct error of the first failing check. -/
def ABCProof.Verify {n : ℕ} {DP : Type} (hash : ChallengeFn n)
    (dverify : DisjVerifyFn n DP) (aProof : ABCProof n DP) (CM CMTok : ECPoint n) :
    Bool × Option ABCError :=
  if dverify aProof.disjuncAC CM CMTok (ZKCurve.H n) (aProof.C.Sub (ZKCurve.G n)) = false then
    (false, some ABCError.subProofError)
  else
    let Challenge := recomputedChallenge hash aProof CM CMTok
    if Challenge ≠ aProof.Challenge then
      (false, some ABCError.challengeMismatch)
    else
      let lhs1 := (CM.Mult Challenge).Add aProof.T1
      let rhs1 := ((ZKCurve.G n).Mult aProof.j).Add (CMTok.Mult aProof.k)
      if lhs1.Equal rhs1 = false then
        (false, some ABCError.equationOneMismatch)
      else
        let lhs2 := (aProof.C.Mult Challenge).Add aProof.T2
        let rhs2 := (aProof.B.Mult aProof.j).Add ((ZKCurve.H n).Mult aProof.l)
        if lhs2.Equal rhs2 = false then
          (false, some ABCError.equationTwoMismatch)
        else
          (true, none)

/-! ### Basic lemmas about the embedding -/

lemma ECPoint.equal_true_iff {n : ℕ} (p q : ECPoint n) : p.Equal q = true ↔ p = q := by
  simp [ECPoint.Equal]

lemma ECPoint.equal_false_iff {n : ℕ} (p q : ECPoint n) : p.Equal q = false ↔ p ≠ q := by
  simp [ECPoint.Equal]

lemma modInverse_zero (n : ℕ) : ModInverse 0 n = 0 := by
  unfold ModInverse
  rcases eq_or_ne n 1 with h1 | h1
  · subst h1; rfl
  · have hone : (1 : ℤ) % (n : ℤ) = 1 := by
      rcases Nat.eq_zero_or_pos n with h0 | hpos
      · subst h0; rfl
      · have h2 : (1 : ℤ) < (n : ℤ) := by
          have : 2 ≤ n := by omega
          exact_mod_cast this
        exact Int.emod_eq_of_lt (by norm_num) h2
    have h : ((List.range n).find? fun x : ℕ => ((0 : ℤ) * (x : ℤ)) % (n : ℤ) == 1 % (n : ℤ)) = none := by
      apply List.find?_eq_none.mpr
      intro x _
      simp only [zero_mul, Int.zero_emod, hone, beq_iff_eq]
      norm_num
    rw [h]
    rfl

/-- Correctness of `ModInverse` on invertible inputs mod a prime:
`ModInverse g n` is a multiplicative inverse of g in `ZMod n`. -/
lemma modInverse_mul_cancel {n : ℕ} (hp : n.Prime) {g : ℤ} (hg : ¬ (n : ℤ) ∣ g) :
    ((ModInverse g n : ℤ) : ZMod n) * (g : ZMod n) = 1 := by
  haveI : Fact n.Prime := ⟨hp⟩
  haveI : NeZero n := ⟨hp.pos.ne'⟩
  have hgz : (g : ZMod n) ≠ 0 := by
    rw [Ne, ZMod.intCast_zmod_eq_zero_iff_dvd]
    exact hg
  have hult : ((g : ZMod n)⁻¹).val < n := ZMod.val_lt _
  have hmod : (g * (((g : ZMod n)⁻¹).val : ℤ)) % (n : ℤ) = 1 % (n : ℤ) := by
    have hc : ((g * (((g : ZMod n)⁻¹).val : ℤ) : ℤ) : ZMod n) = ((1 : ℤ) : ZMod n) := by
      push_cast
      rw [ZMod.natCast_val, ZMod.cast_id]
      exact mul_inv_cancel₀ hgz
    rwa [ZMod.intCast_eq_intCast_iff] at hc
  have hsome : (((List.range n).find? fun x : ℕ => (g * (x : ℤ)) % (n : ℤ) == 1 % (n : ℤ))).isSome = true := by
    rw [List.find?_isSome]
    exact ⟨((g : ZMod n)⁻¹).val, List.mem_range.mpr hult, by simpa using hmod⟩
  obtain ⟨y, hy⟩ := Option.isSome_iff_exists.mp hsome
  have hpy := List.find?_some hy
  have hymod : (g * (y : ℤ)) % (n : ℤ) = 1 % (n : ℤ) := by simpa using hpy
  have hcast : ((g * (y : ℤ) : ℤ) : ZMod n) = ((1 : ℤ) : ZMod n) := by
    rw [ZMod.intCast_eq_intCast_iff]
    exact hymod
  unfold ModInverse
  rw [hy, Option.getD_some]
  push_cast at hcast ⊢
  rw [mul_comm]
  exact hcast

lemma newABCProof_cons {n : ℕ} {DP : Type} (hash : ChallengeFn n) (dgen : DisjGenFn n DP)
    (CM CMTok : ECPoint n) (value sk : ℤ) (option : Side)
    (u1 u2 u3 ub uc : ℤ) (rest : List ℤ) :
    NewABCProof hash dgen CM CMTok value sk option (u1 :: u2 :: u3 :: ub :: uc :: rest) =
      newABCBody hash dgen CM CMTok value sk option u1 u2 u3 ub uc rest := rfl

lemma newABC_invalid {n : ℕ} {DP : Type} (hash : ChallengeFn n) (dgen : DisjGenFn n DP)
    (CM CMTok : ECPoint n) (value sk : ℤ) (option : Side)
    (u1 u2 u3 ub uc : ℤ) (rest : List ℤ)
    (hpair : (value = 0 ∧ option = Side.Right) ∨ (value ≠ 0 ∧ option = Side.Left)) :
    NewABCProof hash dgen CM CMTok value sk option (u1 :: u2 :: u3 :: ub :: uc :: rest) =
      ((some ABCProof.empty, some ABCError.invalidInput), rest) := by
  rw [newABCProof_cons]
  simp only [newABCBody]
  rcases hpair with ⟨hv, ho⟩ | ⟨hv, ho⟩
  · subst hv; subst ho
    rw [if_neg (by simp), if_neg (by simp)]
  · subst ho
    rw [if_neg (by simp [hv]), if_neg (by simp [hv])]

/-- Forward evaluation of the Left branch (src/abc.go:94-104): with v = 0 and
side = Left, `NewABCProof` builds B and C, calls the sub-proof generator on
(CM, CMTok, H, C − G) with witness sk, and finishes the proof. -/
lemma newABC_left {n : ℕ} {DP : Type} (hash : ChallengeFn n) (dgen : DisjGenFn n DP)
    (CM CMTok : ECPoint n) (value sk : ℤ) (u1 u2 u3 ub uc : ℤ) (rest : List ℤ)
    (dp : DP) (hv : value = 0)
    (hdg : dgen CM CMTok (ZKCurve.H n) ((PedCommitR n 0 uc).Sub (ZKCurve.G n)) sk Side.Left =
      some dp) :
    NewABCProof hash dgen CM CMTok value sk Side.Left (u1 :: u2 :: u3 :: ub :: uc :: rest) =
      ((some (finishABC hash CM CMTok value sk (PedCommitR n (ModInverse 0 n) ub)
          (PedCommitR n 0 uc) (((ZKCurve.H n).Mult sk).Mult uc) dp u1 u2 u3 ub uc), none),
        rest) := by
  subst hv
  rw [newABCProof_cons]
  simp [newABCBody, hdg]

/-- Forward evaluation of the Right branch (src/abc.go:105-114): with v ≠ 0 and
side = Right, `NewABCProof` builds B and C, calls the sub-proof generator on
(CM, CMTok, H, C − G) with witness uc, and finishes the proof. -/
lemma newABC_right {n : ℕ} {DP : Type} (hash : ChallengeFn n) (dgen : DisjGenFn n DP)
    (CM CMTok : ECPoint n) (value sk : ℤ) (u1 u2 u3 ub uc : ℤ) (rest : List ℤ)
    (dp : DP) (hv : value ≠ 0)
    (hdg : dgen CM CMTok (ZKCurve.H n) ((PedCommitR n 1 uc).Sub (ZKCurve.G n)) uc Side.Right =
      some dp) :
    NewABCProof hash dgen CM CMTok value sk Side.Right (u1 :: u2 :: u3 :: ub :: uc :: rest) =
      ((some (finishABC hash CM CMTok value sk (PedCommitR n (ModInverse value n) ub)
          (PedCommitR n 1 uc) (((ZKCurve.H n).Mult sk).Mult uc) dp u1 u2 u3 ub uc), none),
        rest) := by
  rw [newABCProof_cons]
  simp [newABCBody, hdg, hv]

/-- Inversion of a successful `NewABCProof` run: it went through the Left or the
Right branch, the sub-proof generator returned a proof on the branch's tuple,
and the result is `finishABC` of the branch's B and C. -/
lemma newABCProof_success_inv {n : ℕ} {DP : Type} {hash : ChallengeFn n}
    {dgen : DisjGenFn n DP} {CM CMTok : ECPoint n} {value sk : ℤ} {option : Side}
    {u1 u2 u3 ub uc : ℤ} {rest : List ℤ} {p : ABCProof n DP}
    (hrun : NewABCProof hash dgen CM CMTok value sk option (u1 :: u2 :: u3 :: ub :: uc :: rest) =
      ((some p, none), rest)) :
    (∃ dp : DP, option = Side.Left ∧ value = 0
      ∧ dgen CM CMTok (ZKCurve.H n) ((PedCommitR n 0 uc).Sub (ZKCurve.G n)) sk Side.Left = some dp
      ∧ p = finishABC hash CM CMTok value sk (PedCommitR n (ModInverse 0 n) ub)
          (PedCommitR n 0 uc) (((ZKCurve.H n).Mult sk).Mult uc) dp u1 u2 u3 ub uc)
    ∨ (∃ dp : DP, option = Side.Right ∧ value ≠ 0
      ∧ dgen CM CMTok (ZKCurve.H n) ((PedCommitR n 1 uc).Sub (ZKCurve.G n)) uc Side.Right = some dp
      ∧ p = finishABC hash CM CMTok value sk (PedCommitR n (ModInverse value n) ub)
          (PedCommitR n 1 uc) (((ZKCurve.H n).Mult sk).Mult uc) dp u1 u2 u3 ub uc) := by
  rw [newABCProof_cons] at hrun
  simp only [newABCBody] at hrun
  by_cases h1 : option = Side.Left ∧ value = 0
  · rw [if_pos h1] at hrun
    cases hdg : dgen CM CMTok (ZKCurve.H n) ((PedCommitR n 0 uc).Sub (ZKCurve.G n)) sk Side.Left with
    | none => rw [hdg] at hrun; simp at hrun
    | some dp =>
        rw [hdg] at hrun
        simp only [Prod.mk.injEq, Option.some.injEq, and_true, true_and] at hrun
        exact Or.inl ⟨dp, h1.1, h1.2, rfl, hrun.symm⟩
  · rw [if_neg h1] at hrun
    by_cases h2 : option = Side.Right ∧ value ≠ 0
    · rw [if_pos h2] at hrun
      cases hdg : dgen CM CMTok (ZKCurve.H n) ((PedCommitR n 1 uc).Sub (ZKCurve.G n)) uc Side.Right with
      | none => rw [hdg] at hrun; simp at hrun
      | some dp =>
          rw [hdg] at hrun
          simp only [Prod.mk.injEq, Option.some.injEq, and_true, true_and] at hrun
          exact Or.inr ⟨dp, h2.1, h2.2, rfl, hrun.symm⟩
    · rw [if_neg h2] at hrun
      simp at hrun

/-! ### The verifier's four checks, named -/

/-- Check 1 of `Verify` (src/abc.go:184): the embedded disjunctive sub-proof,
checked against (CM, CMTok, H, proof.C − G). -/
def abcSubCheck {n : ℕ} {DP : Type} (dverify : DisjVerifyFn n DP)
    (p : ABCProof n DP) (CM CMTok : ECPoint n) : Bool :=
  dverify p.disjuncAC CM CMTok (ZKCurve.H n) (p.C.Sub (ZKCurve.G n))

/-- Check 3 of `Verify` (src/abc.go:199-213): c·CM + T1 = j·G + k·CMTok. -/
def abcEq1Check {n : ℕ} {DP : Type} (p : ABCProof n DP) (CM CMTok : ECPoint n)
    (c : ℤ) : Bool :=
  ((CM.Mult c).Add p.T1).Equal (((ZKCurve.G n).Mult p.j).Add (CMTok.Mult p.k))

/-- Check 4 of `Verify` (src/abc.go:215-225): c·C + T2 = j·B + l·H. -/
def abcEq2Check {n : ℕ} {DP : Type} (p : ABCProof n DP) (c : ℤ) : Bool :=
  ((p.C.Mult c).Add p.T2).Equal ((p.B.Mult p.j).Add ((ZKCurve.H n).Mult p.l))

lemma verify_sub_fail {n : ℕ} {DP : Type} {hash : ChallengeFn n}
    {dverify : DisjVerifyFn n DP} {p : ABCProof n DP} {CM CMTok : ECPoint n}
    (h : dverify p.disjuncAC CM CMTok (ZKCurve.H n) (p.C.Sub (ZKCurve.G n)) = false) :
    p.Verify hash dverify CM CMTok = (false, some ABCError.subProofError) := by
  simp [ABCProof.Verify, h]

lemma verify_chal_fail {n : ℕ} {DP : Type} {hash : ChallengeFn n}
    {dverify : DisjVerifyFn n DP} {p : ABCProof n DP} {CM CMTok : ECPoint n}
    (hsub : dverify p.disjuncAC CM CMTok (ZKCurve.H n) (p.C.Sub (ZKCurve.G n)) = true)
    (hch : recomputedChallenge hash p CM CMTok ≠ p.Challenge) :
    p.Verify hash dverify CM CMTok = (false, some ABCError.challengeMismatch) := by
  simp [ABCProof.Verify, hsub, hch]

lemma verify_eq1_fail {n : ℕ} {DP : Type} {hash : ChallengeFn n}
    {dverify : DisjVerifyFn n DP} {p : ABCProof n DP} {CM CMTok : ECPoint n}
    (hsub : dverify p.disjuncAC CM CMTok (ZKCurve.H n) (p.C.Sub (ZKCurve.G n)) = true)
    (hch : recomputedChallenge hash p CM CMTok = p.Challenge)
    (h1 : (CM.Mult p.Challenge).Add p.T1 ≠ ((ZKCurve.G n).Mult p.j).Add (CMTok.Mult p.k)) :
    p.Verify hash dverify CM CMTok = (false, some ABCError.equationOneMismatch) := by
  simp [ABCProof.Verify, hsub, hch, ECPoint.Equal, h1]

lemma verify_eq2_fail {n : ℕ} {DP : Type} {hash : ChallengeFn n}
    {dverify : DisjVerifyFn n DP} {p : ABCProof n DP} {CM CMTok : ECPoint n}
    (hsub : dverify p.disjuncAC CM CMTok (ZKCurve.H n) (p.C.Sub (ZKCurve.G n)) = true)
    (hch : recomputedChallenge hash p CM CMTok = p.Challenge)
    (h1 : (CM.Mult p.Challenge).Add p.T1 = ((ZKCurve.G n).Mult p.j).Add (CMTok.Mult p.k))
    (h2 : (p.C.Mult p.Challenge).Add p.T2 ≠ (p.B.Mult p.j).Add ((ZKCurve.H n).Mult p.l)) :
    p.Verify hash dverify CM CMTok = (false, some ABCError.equationTwoMismatch) := by
  simp [ABCProof.Verify, hsub, hch, ECPoint.Equal, h1, h2]

lemma verify_true_iff {n : ℕ} {DP : Type} (hash : ChallengeFn n)
    (dverify : DisjVerifyFn n DP) (p : ABCProof n DP) (CM CMTok : ECPoint n) :
    p.Verify hash dverify CM CMTok = (true, none) ↔
      (dverify p.disjuncAC CM CMTok (ZKCurve.H n) (p.C.Sub (ZKCurve.G n)) = true
       ∧ recomputedChallenge hash p CM CMTok = p.Challenge
       ∧ (CM.Mult p.Challenge).Add p.T1 = ((ZKCurve.G n).Mult p.j).Add (CMTok.Mult p.k)
       ∧ (p.C.Mult p.Challenge).Add p.T2 = (p.B.Mult p.j).Add ((ZKCurve.H n).Mult p.l)) := by
  cases hd : dverify p.disjuncAC CM CMTok (ZKCurve.H n) (p.C.Sub (ZKCurve.G n)) with
  | false => simp [ABCProof.Verify, hd]
  | true =>
      by_cases hch : recomputedChallenge hash p CM CMTok = p.Challenge
      · by_cases h1 : (CM.Mult p.Challenge).Add p.T1 = ((ZKCurve.G n).Mult p.j).Add (CMTok.Mult p.k)
        · by_cases h2 : (p.C.Mult p.Challenge).Add p.T2 = (p.B.Mult p.j).Add ((ZKCurve.H n).Mult p.l)
          · simp [ABCProof.Verify, hd, hch, ECPoint.Equal, h1, h2]
          · simp [ABCProof.Verify, hd, hch, ECPoint.Equal, h1, h2]
        · simp [ABCProof.Verify, hd, hch, ECPoint.Equal, h1]
      · simp [ABCProof.Verify, hd, hch]

/-- Claim C10: the boolean result and the error of `Verify` are perfectly
correlated: for every proof and every commitment pair the result is either
(true, nil) or (false, non-nil); never true with an error, never false with a
nil error. -/
theorem abc_verify_result_error_correlation {n : ℕ} {DP : Type}
    (hash : ChallengeFn n) (dverify : DisjVerifyFn n DP) (p : ABCProof n DP)
    (CM CMTok : ECPoint n) :
    p.Verify hash dverify CM CMTok = (true, none)
    ∨ ((p.Verify hash dverify CM CMTok).1 = false
       ∧ (p.Verify hash dverify CM CMTok).2 ≠ none) := by
  simp only [ABCProof.Verify]
  split_ifs <;> simp

/-- Claim C7: `Verify` performs exactly the four checks in order — sub-proof,
challenge recomputation, equation 1, equation 2 — short-circuiting at the first
failing check with that check's error; the four errors are pairwise distinct;
and the result is true exactly when all four checks pass. -/
theorem abc_verify_order_and_errors {n : ℕ} {DP : Type} (hash : ChallengeFn n)
    (dverify : DisjVerifyFn n DP) (p : ABCProof n DP) (CM CMTok : ECPoint n) :
    (p.Verify hash dverify CM CMTok =
      if abcSubCheck dverify p CM CMTok = false then
        (false, some ABCError.subProofError)
      else if recomputedChallenge hash p CM CMTok ≠ p.Challenge then
        (false, some ABCError.challengeMismatch)
      else if abcEq1Check p CM CMTok (recomputedChallenge hash p CM CMTok) = false then
        (false, some ABCError.equationOneMismatch)
      else if abcEq2Check p (recomputedChallenge hash p CM CMTok) = false then
        (false, some ABCError.equationTwoMismatch)
      else (true, none))
    ∧ ((p.Verify hash dverify CM CMTok).1 = true ↔
        (abcSubCheck dverify p CM CMTok = true
         ∧ recomputedChallenge hash p CM CMTok = p.Challenge
         ∧ abcEq1Check p CM CMTok (recomputedChallenge hash p CM CMTok) = true
         ∧ abcEq2Check p (recomputedChallenge hash p CM CMTok) = true))
    ∧ (ABCError.subProofError ≠ ABCError.challengeMismatch
       ∧ ABCError.subProofError ≠ ABCError.equationOneMismatch
       ∧ ABCError.subProofError ≠ ABCError.equationTwoMismatch
       ∧ ABCError.challengeMismatch ≠ ABCError.equationOneMismatch
       ∧ ABCError.challengeMismatch ≠ ABCError.equationTwoMismatch
       ∧ ABCError.equationOneMismatch ≠ ABCError.equationTwoMismatch) := by
  refine ⟨rfl, ?_, by decide⟩
  cases hd : abcSubCheck dverify p CM CMTok with
  | false => simp [ABCProof.Verify, abcSubCheck] at hd ⊢; simp [hd]
  | true =>
      simp only [abcSubCheck] at hd
      by_cases hch : recomputedChallenge hash p CM CMTok = p.Challenge
      · by_cases h1 : (CM.Mult p.Challenge).Add p.T1 = ((ZKCurve.G n).Mult p.j).Add (CMTok.Mult p.k)
        · by_cases h2 : (p.C.Mult p.Challenge).Add p.T2 = (p.B.Mult p.j).Add ((ZKCurve.H n).Mult p.l)
          · simp [ABCProof.Verify, abcSubCheck, abcEq1Check, abcEq2Check, ECPoint.Equal,
              hd, hch, h1, h2]
          · simp [ABCProof.Verify, abcSubCheck, abcEq1Check, abcEq2Check, ECPoint.Equal,
              hd, hch, h1, h2]
        · simp [ABCProof.Verify, abcSubCheck, abcEq1Check, ECPoint.Equal, hd, hch, h1]
      · simp [ABCProof.Verify, abcSubCheck, hd, hch]

/-! ### Concrete instantiations used by the witnesses -/

/-- A concrete challenge collaborator: the constant hash 2. -/
def cHash11 : ChallengeFn 11 := fun _ => 2

/-- A concrete always-succeeding sub-proof generator over trivial sub-proof data. -/
def cGen11 : DisjGenFn 11 Unit := fun _ _ _ _ _ _ => some ()

/-- A concrete always-failing sub-proof generator. -/
def cGenNone11 : DisjGenFn 11 Unit := fun _ _ _ _ _ _ => none

/-- A concrete always-accepting sub-proof verifier. -/
def cVerify11 : DisjVerifyFn 11 Unit := fun _ _ _ _ _ => true

/-- The proof produced by a concrete honest Left-branch run (v = 0, sk = 3). -/
def c5proof : ABCProof 11 Unit :=
  (NewABCProof cHash11 cGen11 ⟨0, 0⟩ ⟨0, 1⟩ 0 3 Side.Left [1, 2, 3, 4, 5]).1.1.getD ABCProof.empty

/-- The proof produced by a concrete Right-branch run (v = 5, sk = 3). -/
def c6proof : ABCProof 11 Unit :=
  (NewABCProof cHash11 cGen11 ⟨0, 0⟩ ⟨0, 1⟩ 5 3 Side.Right [1, 2, 3, 4, 5]).1.1.getD ABCProof.empty

/-! ### Claims C3, C4, C5, C6, C9 -/

/-- Claim C3: for every CM, CMTok and sk, calling `NewABCProof` with v = 0 and
side = Right, or with v ≠ 0 and side = Left, returns the invalid-input error,
and the returned proof value is the empty proof (no proof content). -/
theorem abc_branch_rejection {n : ℕ} {DP : Type} (hash : ChallengeFn n)
    (dgen : DisjGenFn n DP) (CM CMTok : ECPoint n) (value sk : ℤ) (option : Side)
    (u1 u2 u3 ub uc : ℤ) (rest : List ℤ)
    (hpair : (value = 0 ∧ option = Side.Right) ∨ (value ≠ 0 ∧ option = Side.Left)) :
    NewABCProof hash dgen CM CMTok value sk option (u1 :: u2 :: u3 :: ub :: uc :: rest) =
      ((some ABCProof.empty, some ABCError.invalidInput), rest) :=
  newABC_invalid hash dgen CM CMTok value sk option u1 u2 u3 ub uc rest hpair

theorem abc_branch_rejection_witness :
    (((0 : ℤ) = 0 ∧ Side.Right = Side.Right) ∨ ((0 : ℤ) ≠ 0 ∧ Side.Right = Side.Left))
    ∧ NewABCProof cHash11 cGen11 (⟨0, 0⟩ : ECPoint 11) ⟨0, 1⟩ 0 3 Side.Right [1, 2, 3, 4, 5, 6] =
        ((some ABCProof.empty, some ABCError.invalidInput), [6]) :=
  ⟨Or.inl ⟨rfl, rfl⟩,
   abc_branch_rejection cHash11 cGen11 ⟨0, 0⟩ ⟨0, 1⟩ 0 3 Side.Right 1 2 3 4 5 [6]
     (Or.inl ⟨rfl, rfl⟩)⟩

/-- Claim C4 counterexample: on an inconsistent (side, v) pairing the
randomness source IS consumed: with a six-scalar stream, the run with
v = 5 ≠ 0 and side = Left leaves only the sixth scalar unconsumed (the five
uniform scalars were drawn before the pairing check, src/abc.go:64-85), even
though it fails with the invalid-input error. -/
theorem abc_no_scalars_drawn_counterexample :
    (NewABCProof cHash11 cGen11 (⟨0, 0⟩ : ECPoint 11) ⟨0, 1⟩ 5 3 Side.Left
        [1, 2, 3, 4, 5, 6]).2 ≠ [1, 2, 3, 4, 5, 6]
    ∧ (NewABCProof cHash11 cGen11 (⟨0, 0⟩ : ECPoint 11) ⟨0, 1⟩ 5 3 Side.Left
        [1, 2, 3, 4, 5, 6]).2 = [6]
    ∧ (NewABCProof cHash11 cGen11 (⟨0, 0⟩ : ECPoint 11) ⟨0, 1⟩ 5 3 Side.Left
        [1, 2, 3, 4, 5, 6]).1.2 = some ABCError.invalidInput :=
  ⟨by decide, by decide, by decide⟩

/-- Claim C4 (amended): on an inconsistent (side, v) pairing `NewABCProof`
fails with the invalid-input error and never invokes the disjunctive sub-proof
generator (the result is the same for every generator), but the five uniform
scalars u1, u2, u3, ub, uc are drawn before the pairing check, so exactly five
scalars of the randomness source are consumed. -/
theorem abc_invalid_pair_draws_scalars {n : ℕ} {DP : Type} (hash : ChallengeFn n)
    (dgen dgen' : DisjGenFn n DP) (CM CMTok : ECPoint n) (value sk : ℤ)
    (option : Side) (u1 u2 u3 ub uc : ℤ) (rest : List ℤ)
    (hpair : (value = 0 ∧ option = Side.Right) ∨ (value ≠ 0 ∧ option = Side.Left)) :
    NewABCProof hash dgen CM CMTok value sk option (u1 :: u2 :: u3 :: ub :: uc :: rest) =
      NewABCProof hash dgen' CM CMTok value sk option (u1 :: u2 :: u3 :: ub :: uc :: rest)
    ∧ (NewABCProof hash dgen CM CMTok value sk option (u1 :: u2 :: u3 :: ub :: uc :: rest)).2 = rest
    ∧ (NewABCProof hash dgen CM CMTok value sk option (u1 :: u2 :: u3 :: ub :: uc :: rest)).1 =
        (some ABCProof.empty, some ABCError.invalidInput) := by
  have h := newABC_invalid hash dgen CM CMTok value sk option u1 u2 u3 ub uc rest hpair
  have h' := newABC_invalid hash dgen' CM CMTok value sk option u1 u2 u3 ub uc rest hpair
  rw [h, h']
  exact ⟨rfl, rfl, rfl⟩

theorem abc_invalid_pair_draws_scalars_witness :
    (((5 : ℤ) = 0 ∧ Side.Left = Side.Right) ∨ ((5 : ℤ) ≠ 0 ∧ Side.Left = Side.Left))
    ∧ (NewABCProof cHash11 cGen11 (⟨0, 0⟩ : ECPoint 11) ⟨0, 1⟩ 5 3 Side.Left [1, 2, 3, 4, 5, 6] =
        NewABCProof cHash11 cGenNone11 (⟨0, 0⟩ : ECPoint 11) ⟨0, 1⟩ 5 3 Side.Left [1, 2, 3, 4, 5, 6]
       ∧ (NewABCProof cHash11 cGen11 (⟨0, 0⟩ : ECPoint 11) ⟨0, 1⟩ 5 3 Side.Left
            [1, 2, 3, 4, 5, 6]).2 = [6]
       ∧ (NewABCProof cHash11 cGen11 (⟨0, 0⟩ : ECPoint 11) ⟨0, 1⟩ 5 3 Side.Left
            [1, 2, 3, 4, 5, 6]).1 = (some ABCProof.empty, some ABCError.invalidInput)) :=
  ⟨Or.inr ⟨by decide, rfl⟩,
   abc_invalid_pair_draws_scalars cHash11 cGen11 cGenNone11 ⟨0, 0⟩ ⟨0, 1⟩ 5 3 Side.Left
     1 2 3 4 5 [6] (Or.inr ⟨by decide, rfl⟩)⟩

/-- Claim C5: in the Left branch (v = 0), B is the Pedersen commitment to
`inverse(0)` with randomness ub, where `inverse(0)` is the scalar 0 by
convention — so B = ub·H — and C is the Pedersen commitment to 0 with
randomness uc, so C = uc·H. -/
theorem abc_zero_inverse_convention {n : ℕ} {DP : Type} (hash : ChallengeFn n)
    (dgen : DisjGenFn n DP) (CM CMTok : ECPoint n) (sk : ℤ)
    (u1 u2 u3 ub uc : ℤ) (rest : List ℤ) (p : ABCProof n DP)
    (hrun : NewABCProof hash dgen CM CMTok 0 sk Side.Left (u1 :: u2 :: u3 :: ub :: uc :: rest) =
      ((some p, none), rest)) :
    ModInverse 0 n = 0
    ∧ p.B = PedCommitR n (ModInverse 0 n) ub
    ∧ p.B = (ZKCurve.H n).Mult ub
    ∧ p.C = PedCommitR n 0 uc
    ∧ p.C = (ZKCurve.H n).Mult uc := by
  rcases newABCProof_success_inv hrun with ⟨dp, _, _, _, hp⟩ | ⟨dp, _, hne, _, _⟩
  · subst hp
    refine ⟨modInverse_zero n, rfl, ?_, rfl, ?_⟩
    · show PedCommitR n (ModInverse 0 n) ub = (ZKCurve.H n).Mult ub
      rw [modInverse_zero]
      ext <;> simp [PedCommitR, ECPoint.Mult, ZKCurve.H]
    · show PedCommitR n 0 uc = (ZKCurve.H n).Mult uc
      ext <;> simp [PedCommitR, ECPoint.Mult, ZKCurve.H]
  · exact absurd rfl hne

theorem abc_zero_inverse_convention_witness :
    NewABCProof cHash11 cGen11 (⟨0, 0⟩ : ECPoint 11) ⟨0, 1⟩ 0 3 Side.Left [1, 2, 3, 4, 5] =
      ((some c5proof, none), [])
    ∧ c5proof.B = (ZKCurve.H 11).Mult 4
    ∧ c5proof.C = (ZKCurve.H 11).Mult 5 :=
  ⟨by decide,
   (abc_zero_inverse_convention cHash11 cGen11 ⟨0, 0⟩ ⟨0, 1⟩ 3 1 2 3 4 5 [] c5proof
     (by decide)).2.2.1,
   (abc_zero_inverse_convention cHash11 cGen11 ⟨0, 0⟩ ⟨0, 1⟩ 3 1 2 3 4 5 [] c5proof
     (by decide)).2.2.2.2⟩

/-- Claim C6: in every successful run, j = (u1 + v·c) mod N and
k = (u2 + inverse(sk)·c) mod N are reduced into [0, N), while
l = u3 + (uc − v·ub)·c is computed over the integers with no final reduction
mod N. -/
theorem abc_response_scalars {n : ℕ} {DP : Type} (hn : 0 < n) (hash : ChallengeFn n)
    (dgen : DisjGenFn n DP) (CM CMTok : ECPoint n) (value sk : ℤ) (option : Side)
    (u1 u2 u3 ub uc : ℤ) (rest : List ℤ) (p : ABCProof n DP)
    (hrun : NewABCProof hash dgen CM CMTok value sk option (u1 :: u2 :: u3 :: ub :: uc :: rest) =
      ((some p, none), rest)) :
    p.j = (u1 + value * p.Challenge) % (n : ℤ) ∧ 0 ≤ p.j ∧ p.j < (n : ℤ)
    ∧ p.k = (u2 + ModInverse sk n * p.Challenge) % (n : ℤ) ∧ 0 ≤ p.k ∧ p.k < (n : ℤ)
    ∧ p.l = u3 + (uc - value * ub) * p.Challenge := by
  have hnz : (n : ℤ) ≠ 0 := Int.natCast_ne_zero.mpr hn.ne'
  have hpos : (0 : ℤ) < (n : ℤ) := by exact_mod_cast hn
  rcases newABCProof_success_inv hrun with ⟨dp, _, _, _, hp⟩ | ⟨dp, _, _, _, hp⟩ <;>
    (subst hp;
     exact ⟨rfl, Int.emod_nonneg _ hnz, Int.emod_lt_of_pos _ hpos, rfl,
       Int.emod_nonneg _ hnz, Int.emod_lt_of_pos _ hpos, rfl⟩)

theorem abc_response_scalars_witness :
    0 < 11
    ∧ (c6proof.j = (1 + 5 * c6proof.Challenge) % ((11 : ℕ) : ℤ)
       ∧ 0 ≤ c6proof.j ∧ c6proof.j < ((11 : ℕ) : ℤ)
       ∧ c6proof.k = (2 + ModInverse 3 11 * c6proof.Challenge) % ((11 : ℕ) : ℤ)
       ∧ 0 ≤ c6proof.k ∧ c6proof.k < ((11 : ℕ) : ℤ)
       ∧ c6proof.l = 3 + (5 - 5 * 4) * c6proof.Challenge)
    ∧ c6proof.l = -27 :=
  ⟨by decide,
   abc_response_scalars (by decide) cHash11 cGen11 ⟨0, 0⟩ ⟨0, 1⟩ 5 3 Side.Right
     1 2 3 4 5 [] c6proof (by decide),
   by decide⟩

/-- Claim C9 counterexample: the call with side = Left, v = 0 and sk = 0 is not
rejected and is total in the reference behavior: the run below succeeds (no
error) and produces the response k = u2 mod N, because `ModInverse(0, N)` is the
scalar 0 under the zero-inverse convention (src/abc.go:17, spec section 9), not
an undefined value. -/
theorem abc_sk_zero_counterexample :
    (NewABCProof cHash11 cGen11 (⟨0, 0⟩ : ECPoint 11) ⟨0, 1⟩ 0 0 Side.Left
        [1, 2, 3, 4, 5]).1.2 = none
    ∧ ((NewABCProof cHash11 cGen11 (⟨0, 0⟩ : ECPoint 11) ⟨0, 1⟩ 0 0 Side.Left
        [1, 2, 3, 4, 5]).1.1.map ABCProof.k) = some 2
    ∧ ModInverse 0 11 = 0 :=
  ⟨by decide, by decide, by decide⟩

/-- Claim C9 (amended): the sk ≠ 0 precondition is never validated by
`NewABCProof` — its only input-validation branch inspects (option, value) — so
a call with side = Left, v = 0 and sk = 0 is not rejected with the
invalid-input error: it proceeds, `ModInverse(0, N)` evaluates to the scalar 0
under the zero-inverse convention, and the run completes with
k = (u2 + 0·c) mod N = u2 mod N. -/
theorem abc_sk_zero_not_validated {n : ℕ} {DP : Type} (hash : ChallengeFn n)
    (dgen : DisjGenFn n DP) (CM CMTok : ECPoint n) (u1 u2 u3 ub uc : ℤ)
    (rest : List ℤ) (dp : DP)
    (hdg : dgen CM CMTok (ZKCurve.H n) ((PedCommitR n 0 uc).Sub (ZKCurve.G n)) 0 Side.Left =
      some dp) :
    (NewABCProof hash dgen CM CMTok 0 0 Side.Left (u1 :: u2 :: u3 :: ub :: uc :: rest)).1.2 = none
    ∧ ((NewABCProof hash dgen CM CMTok 0 0 Side.Left
        (u1 :: u2 :: u3 :: ub :: uc :: rest)).1.1.map ABCProof.k) = some (u2 % (n : ℤ))
    ∧ ModInverse 0 n = 0 := by
  rw [newABC_left hash dgen CM CMTok 0 0 u1 u2 u3 ub uc rest dp rfl hdg]
  refine ⟨rfl, ?_, modInverse_zero n⟩
  simp [finishABC, modInverse_zero]

/-! ### Point algebra lemmas -/

lemma ptAdd_left_cancel {n : ℕ} {z x y : ECPoint n} (h : z.Add x = z.Add y) : x = y := by
  have hg := congrArg ECPoint.g h
  have hh := congrArg ECPoint.h h
  simp only [ECPoint.Add] at hg hh
  ext
  · exact add_left_cancel hg
  · exact add_left_cancel hh

lemma ptAdd_right_cancel {n : ℕ} {z x y : ECPoint n} (h : x.Add z = y.Add z) : x = y := by
  have hg := congrArg ECPoint.g h
  have hh := congrArg ECPoint.h h
  simp only [ECPoint.Add] at hg hh
  ext
  · exact add_right_cancel hg
  · exact add_right_cancel hh

/-- Scalar multiplication only sees the scalar mod n. -/
lemma mult_congr {n : ℕ} (P : ECPoint n) {a b : ℤ} (h : (a : ZMod n) = (b : ZMod n)) :
    P.Mult a = P.Mult b := by
  simp [ECPoint.Mult, h]

/-- On a nonzero point of a prime-order group, scalar multiplication is
injective on scalars mod n. -/
lemma mult_inj {n : ℕ} (hp : n.Prime) {P : ECPoint n} (hP : P ≠ (⟨0, 0⟩ : ECPoint n))
    {a b : ℤ} (hab : (a : ZMod n) ≠ (b : ZMod n)) : P.Mult a ≠ P.Mult b := by
  haveI : Fact n.Prime := ⟨hp⟩
  intro h
  apply hab
  have hg := congrArg ECPoint.g h
  have hh := congrArg ECPoint.h h
  simp only [ECPoint.Mult] at hg hh
  by_cases hg0 : P.g = 0
  · by_cases hh0 : P.h = 0
    · exact absurd (by ext <;> simp [hg0, hh0]) hP
    · exact mul_right_cancel₀ hh0 hh
  · exact mul_right_cancel₀ hg0 hg

/-! ### Completeness machinery (claim C1) -/

/-- The first verification equation c·CM + T1 = j·G + k·CMTok holds for honest
commitments CM = v·G + r·H and CMTok = (r·sk)·H with the shared blinding r and
the honestly computed responses, for every challenge c. -/
lemma abc_eq1_holds {n : ℕ} (value sk r c u1 u2 : ℤ) (CM CMTok : ECPoint n)
    (hinv : ((ModInverse sk n : ℤ) : ZMod n) * (sk : ZMod n) = 1)
    (hCMg : CM.g = (value : ZMod n)) (hCMh : CM.h = (r : ZMod n))
    (hTokg : CMTok.g = 0) (hTokh : CMTok.h = (r : ZMod n) * (sk : ZMod n)) :
    (CM.Mult c).Add (((ZKCurve.G n).Mult u1).Add (CMTok.Mult u2)) =
      ((ZKCurve.G n).Mult ((u1 + value * c) % (n : ℤ))).Add
        (CMTok.Mult ((u2 + ModInverse sk n * c) % (n : ℤ))) := by
  ext
  · simp only [ECPoint.Add, ECPoint.Mult, ZKCurve.G, hCMg, hTokg, ZMod.intCast_mod]
    push_cast
    ring
  · simp only [ECPoint.Add, ECPoint.Mult, ZKCurve.G, hCMh, hTokh, ZMod.intCast_mod]
    push_cast
    linear_combination (-((c : ZMod n) * (r : ZMod n))) * hinv

/-- The second verification equation c·C + T2 = j·B + l·H holds whenever the
committed values satisfy v·b = c (the multiplicative relation) and B, C carry
blindings ub, uc, for every challenge c. -/
lemma abc_eq2_holds {n : ℕ} (value u1 u3 ub uc c : ℤ) (B C : ECPoint n)
    (hb : (value : ZMod n) * B.g = C.g)
    (hBh : B.h = (ub : ZMod n)) (hCh : C.h = (uc : ZMod n)) :
    (C.Mult c).Add ((B.Mult u1).Add ((ZKCurve.H n).Mult u3)) =
      (B.Mult ((u1 + value * c) % (n : ℤ))).Add
        ((ZKCurve.H n).Mult (u3 + (uc - value * ub) * c)) := by
  ext
  · simp only [ECPoint.Add, ECPoint.Mult, ZKCurve.H, ZMod.intCast_mod]
    push_cast
    linear_combination (-(c : ZMod n)) * hb
  · simp only [ECPoint.Add, ECPoint.Mult, ZKCurve.H, hBh, hCh, ZMod.intCast_mod]
    push_cast
    ring

/-- A `finishABC` proof over honest commitments and correctly related B, C
passes all four verification checks. -/
lemma finishABC_verifies {n : ℕ} {DP : Type} (hash : ChallengeFn n)
    (dverify : DisjVerifyFn n DP) (value sk r : ℤ) (B C CTok : ECPoint n) (dp : DP)
    (u1 u2 u3 ub uc : ℤ) (CM CMTok : ECPoint n)
    (hinv : ((ModInverse sk n : ℤ) : ZMod n) * (sk : ZMod n) = 1)
    (hCM : CM = PedCommitR n value r) (hTok : CMTok = (ZKCurve.H n).Mult (r * sk))
    (hb : (value : ZMod n) * B.g = C.g)
    (hBh : B.h = (ub : ZMod n)) (hCh : C.h = (uc : ZMod n))
    (hdv : dverify (some dp) CM CMTok (ZKCurve.H n) (C.Sub (ZKCurve.G n)) = true) :
    (finishABC hash CM CMTok value sk B C CTok dp u1 u2 u3 ub uc).Verify hash dverify CM CMTok =
      (true, none) := by
  rw [verify_true_iff]
  refine ⟨hdv, rfl, ?_, ?_⟩
  · exact abc_eq1_holds value sk r
      ((finishABC hash CM CMTok value sk B C CTok dp u1 u2 u3 ub uc).Challenge) u1 u2 CM CMTok
      hinv (by rw [hCM]; rfl) (by rw [hCM]; rfl)
      (by rw [hTok]; simp [ECPoint.Mult, ZKCurve.H])
      (by rw [hTok]; simp [ECPoint.Mult, ZKCurve.H])
  · exact abc_eq2_holds value u1 u3 ub uc
      ((finishABC hash CM CMTok value sk B C CTok dp u1 u2 u3 ub uc).Challenge) B C hb hBh hCh

/-- Claim C1 (completeness): for sk ≠ 0 (as a scalar mod N, expressed as
N ∤ sk) and v with the side matching v's zeroness, over honestly derived
commitments CM = v·G + r·H and CMTok = (r·sk)·H — with the shared blinding r
(spec section 3, src/abc.go:19 "same r from A") — `NewABCProof` succeeds and
the resulting proof verifies as (true, nil), assuming the disjunctive
sub-proof collaborator is complete (every generated sub-proof passes its
verification, and generation succeeds). -/
theorem abc_completeness {n : ℕ} {DP : Type} (hp : n.Prime) (hash : ChallengeFn n)
    (dgen : DisjGenFn n DP) (dverify : DisjVerifyFn n DP)
    (hcomp : ∀ (a b c d : ECPoint n) (w : ℤ) (s : Side) (dp : DP),
      dgen a b c d w s = some dp → dverify (some dp) a b c d = true)
    (hgen : ∀ (a b c d : ECPoint n) (w : ℤ) (s : Side), (dgen a b c d w s).isSome = true)
    (value sk r : ℤ) (side : Side) (u1 u2 u3 ub uc : ℤ) (rest : List ℤ)
    (hsk : ¬ (n : ℤ) ∣ sk)
    (hside : (side = Side.Left ∧ value = 0)
      ∨ (side = Side.Right ∧ value ≠ 0 ∧ ¬ (n : ℤ) ∣ value))
    (CM CMTok : ECPoint n)
    (hCM : CM = PedCommitR n value r) (hTok : CMTok = (ZKCurve.H n).Mult (r * sk)) :
    (NewABCProof hash dgen CM CMTok value sk side (u1 :: u2 :: u3 :: ub :: uc :: rest)).1.2 = none
    ∧ ((NewABCProof hash dgen CM CMTok value sk side
        (u1 :: u2 :: u3 :: ub :: uc :: rest)).1.1.map
          (fun q => q.Verify hash dverify CM CMTok)) = some (true, none) := by
  have hinv := modInverse_mul_cancel hp hsk
  rcases hside with ⟨hs, hv⟩ | ⟨hs, hv, hvd⟩
  · subst hs; subst hv
    obtain ⟨dp, hdg⟩ := Option.isSome_iff_exists.mp
      (hgen CM CMTok (ZKCurve.H n) ((PedCommitR n 0 uc).Sub (ZKCurve.G n)) sk Side.Left)
    rw [newABC_left hash dgen CM CMTok 0 sk u1 u2 u3 ub uc rest dp rfl hdg]
    refine ⟨rfl, ?_⟩
    simp only [Option.map_some']
    rw [finishABC_verifies hash dverify 0 sk r (PedCommitR n (ModInverse 0 n) ub)
      (PedCommitR n 0 uc) (((ZKCurve.H n).Mult sk).Mult uc) dp u1 u2 u3 ub uc CM CMTok hinv hCM
      hTok (by simp [PedCommitR]) rfl rfl
      (hcomp CM CMTok (ZKCurve.H n) ((PedCommitR n 0 uc).Sub (ZKCurve.G n)) sk Side.Left dp hdg)]
  · subst hs
    obtain ⟨dp, hdg⟩ := Option.isSome_iff_exists.mp
      (hgen CM CMTok (ZKCurve.H n) ((PedCommitR n 1 uc).Sub (ZKCurve.G n)) uc Side.Right)
    rw [newABC_right hash dgen CM CMTok value sk u1 u2 u3 ub uc rest dp hv hdg]
    refine ⟨rfl, ?_⟩
    simp only [Option.map_some']
    have hvinv := modInverse_mul_cancel hp hvd
    rw [finishABC_verifies hash dverify value sk r (PedCommitR n (ModInverse value n) ub)
      (PedCommitR n 1 uc) (((ZKCurve.H n).Mult sk).Mult uc) dp u1 u2 u3 ub uc CM CMTok hinv hCM
      hTok (by simp only [PedCommitR]; rw [mul_comm]; simpa using hvinv) rfl rfl
      (hcomp CM CMTok (ZKCurve.H n) ((PedCommitR n 1 uc).Sub (ZKCurve.G n)) uc Side.Right dp hdg)]

theorem abc_completeness_witness :
    Nat.Prime 11
    ∧ ((NewABCProof cHash11 cGen11 (PedCommitR 11 0 2) ((ZKCurve.H 11).Mult (2 * 3)) 0 3
        Side.Left [1, 2, 3, 4, 5]).1.2 = none
       ∧ ((NewABCProof cHash11 cGen11 (PedCommitR 11 0 2) ((ZKCurve.H 11).Mult (2 * 3)) 0 3
        Side.Left [1, 2, 3, 4, 5]).1.1.map
          (fun q => q.Verify cHash11 cVerify11 (PedCommitR 11 0 2)
            ((ZKCurve.H 11).Mult (2 * 3)))) = some (true, none)) :=
  ⟨by norm_num,
   abc_completeness (by norm_num) cHash11 cGen11 cVerify11
     (fun _ _ _ _ _ _ _ _ => rfl) (fun _ _ _ _ _ _ => rfl)
     0 3 2 Side.Left 1 2 3 4 5 [] (by decide) (Or.inl ⟨rfl, rfl⟩)
     (PedCommitR 11 0 2) ((ZKCurve.H 11).Mult (2 * 3)) rfl rfl⟩

/-! ### Sub-proof delegation (claim C8) -/

/-- A proof fails verification with precisely the sub-proof error iff the
disjunctive verifier rejects the embedded sub-proof on the tuple
(CM, CMTok, H, proof.C − G). -/
lemma verify_subproof_error_iff {n : ℕ} {DP : Type} (hash : ChallengeFn n)
    (dverify : DisjVerifyFn n DP) (p : ABCProof n DP) (CM CMTok : ECPoint n) :
    p.Verify hash dverify CM CMTok = (false, some ABCError.subProofError) ↔
      dverify p.disjuncAC CM CMTok (ZKCurve.H n) (p.C.Sub (ZKCurve.G n)) = false := by
  constructor
  · intro h
    cases hb : dverify p.disjuncAC CM CMTok (ZKCurve.H n) (p.C.Sub (ZKCurve.G n)) with
    | false => rfl
    | true =>
        exfalso
        simp only [ABCProof.Verify, hb] at h
        split_ifs at h <;> simp_all
  · intro h
    exact verify_sub_fail h

/-- Claim C8: the prover hands the disjunctive sub-proof generator exactly the
tuple (CM, CMTok, H, C − G) — with witness sk and side Left when v = 0, and
witness uc and side Right when v ≠ 0 — and the verifier checks the embedded
sub-proof against exactly the same tuple (CM, CMTok, H, proof.C − G). -/
theorem abc_subproof_delegation {n : ℕ} {DP : Type} (hash : ChallengeFn n)
    (dgen : DisjGenFn n DP) (dverify : DisjVerifyFn n DP)
    (CM CMTok CM' CMTok' : ECPoint n) (value sk w : ℤ) (side : Side)
    (u1 u2 u3 ub uc : ℤ) (rest : List ℤ) (p : ABCProof n DP)
    (hside : (side = Side.Left ∧ value = 0 ∧ w = sk)
      ∨ (side = Side.Right ∧ value ≠ 0 ∧ w = uc))
    (hrun : NewABCProof hash dgen CM CMTok value sk side (u1 :: u2 :: u3 :: ub :: uc :: rest) =
      ((some p, none), rest)) :
    dgen CM CMTok (ZKCurve.H n) (p.C.Sub (ZKCurve.G n)) w side = p.disjuncAC
    ∧ (p.Verify hash dverify CM' CMTok' = (false, some ABCError.subProofError) ↔
        dverify p.disjuncAC CM' CMTok' (ZKCurve.H n) (p.C.Sub (ZKCurve.G n)) = false) := by
  refine ⟨?_, verify_subproof_error_iff hash dverify p CM' CMTok'⟩
  rcases newABCProof_success_inv hrun with ⟨dp, hs, hv, hdg, hp⟩ | ⟨dp, hs, hv, hdg, hp⟩
  · rcases hside with ⟨_, _, hw⟩ | ⟨hs2, _, _⟩
    · subst hp; subst hs; subst hw
      exact hdg
    · rw [hs] at hs2; exact absurd hs2 (by simp)
  · rcases hside with ⟨hs2, hv2, _⟩ | ⟨_, _, hw⟩
    · rw [hs] at hs2; exact absurd hs2 (by simp)
    · subst hp; subst hs; subst hw
      exact hdg

theorem abc_subproof_delegation_witness :
    ((Side.Left = Side.Left ∧ (0 : ℤ) = 0 ∧ (3 : ℤ) = 3)
      ∨ (Side.Left = Side.Right ∧ (0 : ℤ) ≠ 0 ∧ (3 : ℤ) = 5))
    ∧ (cGen11 ⟨0, 0⟩ ⟨0, 1⟩ (ZKCurve.H 11) (c5proof.C.Sub (ZKCurve.G 11)) 3 Side.Left =
        c5proof.disjuncAC
       ∧ (c5proof.Verify cHash11 cVerify11 ⟨1, 1⟩ ⟨2, 2⟩ =
            (false, some ABCError.subProofError) ↔
          cVerify11 c5proof.disjuncAC ⟨1, 1⟩ ⟨2, 2⟩ (ZKCurve.H 11)
            (c5proof.C.Sub (ZKCurve.G 11)) = false)) :=
  ⟨Or.inl ⟨rfl, rfl, rfl⟩,
   abc_subproof_delegation cHash11 cGen11 cVerify11 ⟨0, 0⟩ ⟨0, 1⟩ ⟨1, 1⟩ ⟨2, 2⟩ 0 3 3
     Side.Left 1 2 3 4 5 [] c5proof (Or.inl ⟨rfl, rfl, rfl⟩) (by decide)⟩

theorem abc_sk_zero_not_validated_witness :
    cGen11 (⟨0, 0⟩ : ECPoint 11) ⟨0, 1⟩ (ZKCurve.H 11)
        ((PedCommitR 11 0 5).Sub (ZKCurve.G 11)) 0 Side.Left = some ()
    ∧ ((NewABCProof cHash11 cGen11 (⟨0, 0⟩ : ECPoint 11) ⟨0, 1⟩ 0 0 Side.Left
          [1, 2, 3, 4, 5]).1.2 = none
       ∧ ((NewABCProof cHash11 cGen11 (⟨0, 0⟩ : ECPoint 11) ⟨0, 1⟩ 0 0 Side.Left
          [1, 2, 3, 4, 5]).1.1.map ABCProof.k) = some ((2 : ℤ) % ((11 : ℕ) : ℤ))
       ∧ ModInverse 0 11 = 0) :=
  ⟨rfl, abc_sk_zero_not_validated cHash11 cGen11 ⟨0, 0⟩ ⟨0, 1⟩ 1 2 3 4 5 [] () rfl⟩

/-! ### Tamper sensitivity (claim C2) -/

/-- Honest commitment to v = 0 with blinding r = 2. -/
def c2CM : ECPoint 11 := PedCommitR 11 0 2

/-- Honest CMTok = (r·sk)·H with r = 2, sk = 3. -/
def c2Tok : ECPoint 11 := (ZKCurve.H 11).Mult (2 * 3)

/-- The proof of the honest Left-branch run over c2CM, c2Tok. -/
def c2proof : ABCProof 11 Unit :=
  (NewABCProof cHash11 cGen11 c2CM c2Tok 0 3 Side.Left [1, 2, 3, 4, 5]).1.1.getD ABCProof.empty

/-- The exact Fiat-Shamir input list of the honest run above. -/
def tList : List (ECPoint 11) :=
  [ZKCurve.G 11, ZKCurve.H 11, c2CM, c2Tok, c2proof.B, c2proof.C, c2proof.T1, c2proof.T2]

/-- A challenge collaborator with no collisions against the honest transcript:
the honest hash value on the exact honest input list, a different value
everywhere else. -/
def tHash : ChallengeFn 11 := fun L => if L = tList then 2 else 3

/-- Claim C2 counterexample: changing the unreduced response scalar l of an
accepted proof to the different integer l + N (same residue mod N) leaves
Verify accepting: the claim's requirement that such a change be rejected is
false, because the verifier consumes l only through the scalar multiplication
l·H, which is insensitive to the representative of l mod N (spec section 9
itself notes this). -/
theorem abc_tamper_l_counterexample :
    c2proof.Verify cHash11 cVerify11 c2CM c2Tok = (true, none)
    ∧ ABCProof.Verify cHash11 cVerify11 {c2proof with l := c2proof.l + 11} c2CM c2Tok =
        (true, none)
    ∧ c2proof.l + 11 ≠ c2proof.l
    ∧ (c2proof.l + 11) % ((11 : ℕ) : ℤ) = c2proof.l % ((11 : ℕ) : ℤ) :=
  ⟨by decide, by decide, by decide, by decide⟩

/-- Claim C2 (amended): for every proof accepted by Verify against (CM, CMTok)
with CMTok not the identity, over a prime-order group: any change to Challenge
is rejected with the challenge-mismatch error; any change to T1 or T2 is
rejected (with the challenge-mismatch or an equation-mismatch error); any
change to B, and any change to C, is rejected provided the Fiat-Shamir hash
has no collision there (for C the rejection may also be the sub-proof error,
since C feeds the sub-proof tuple); and a change to one of the scalars j, k, l
is rejected precisely when it changes the scalar mod N — j and k at equation 1,
l at equation 2 — while a change to j, k or l by a multiple of N is still
accepted. -/
theorem abc_tamper_sensitivity_amended {n : ℕ} {DP : Type} (hp : n.Prime)
    (hash : ChallengeFn n) (dverify : DisjVerifyFn n DP) (p : ABCProof n DP)
    (CM CMTok : ECPoint n)
    (hacc : p.Verify hash dverify CM CMTok = (true, none))
    (hTok : CMTok ≠ (⟨0, 0⟩ : ECPoint n))
    (hhB : ∀ B' : ECPoint n, B' ≠ p.B →
      recomputedChallenge hash {p with B := B'} CM CMTok ≠ p.Challenge)
    (hhC : ∀ C' : ECPoint n, C' ≠ p.C →
      recomputedChallenge hash {p with C := C'} CM CMTok ≠ p.Challenge) :
    (∀ c' : ℤ, c' ≠ p.Challenge →
      ABCProof.Verify hash dverify {p with Challenge := c'} CM CMTok =
        (false, some ABCError.challengeMismatch))
    ∧ (∀ T1' : ECPoint n, T1' ≠ p.T1 →
        (ABCProof.Verify hash dverify {p with T1 := T1'} CM CMTok).1 = false
        ∧ (ABCProof.Verify hash dverify {p with T1 := T1'} CM CMTok).2 ≠ none)
    ∧ (∀ T2' : ECPoint n, T2' ≠ p.T2 →
        (ABCProof.Verify hash dverify {p with T2 := T2'} CM CMTok).1 = false
        ∧ (ABCProof.Verify hash dverify {p with T2 := T2'} CM CMTok).2 ≠ none)
    ∧ (∀ B' : ECPoint n, B' ≠ p.B →
        ABCProof.Verify hash dverify {p with B := B'} CM CMTok =
          (false, some ABCError.challengeMismatch))
    ∧ (∀ C' : ECPoint n, C' ≠ p.C →
        (ABCProof.Verify hash dverify {p with C := C'} CM CMTok).1 = false
        ∧ (ABCProof.Verify hash dverify {p with C := C'} CM CMTok).2 ≠ none)
    ∧ (∀ j' : ℤ,
        ((j' : ZMod n) ≠ ((p.j : ℤ) : ZMod n) →
          ABCProof.Verify hash dverify {p with j := j'} CM CMTok =
            (false, some ABCError.equationOneMismatch))
        ∧ ((j' : ZMod n) = ((p.j : ℤ) : ZMod n) →
          ABCProof.Verify hash dverify {p with j := j'} CM CMTok = (true, none)))
    ∧ (∀ k' : ℤ,
        ((k' : ZMod n) ≠ ((p.k : ℤ) : ZMod n) →
          ABCProof.Verify hash dverify {p with k := k'} CM CMTok =
            (false, some ABCError.equationOneMismatch))
        ∧ ((k' : ZMod n) = ((p.k : ℤ) : ZMod n) →
          ABCProof.Verify hash dverify {p with k := k'} CM CMTok = (true, none)))
    ∧ (∀ l' : ℤ,
        ((l' : ZMod n) ≠ ((p.l : ℤ) : ZMod n) →
          ABCProof.Verify hash dverify {p with l := l'} CM CMTok =
            (false, some ABCError.equationTwoMismatch))
        ∧ ((l' : ZMod n) = ((p.l : ℤ) : ZMod n) →
          ABCProof.Verify hash dverify {p with l := l'} CM CMTok = (true, none))) := by
  haveI : Fact n.Prime := ⟨hp⟩
  haveI : Fact (1 < n) := ⟨hp.one_lt⟩
  obtain ⟨hsub, hch, heq1, heq2⟩ := (verify_true_iff hash dverify p CM CMTok).mp hacc
  have hG : ZKCurve.G n ≠ (⟨0, 0⟩ : ECPoint n) := by
    intro h
    have hg := congrArg ECPoint.g h
    simp only [ZKCurve.G] at hg
    exact one_ne_zero hg
  have hH : ZKCurve.H n ≠ (⟨0, 0⟩ : ECPoint n) := by
    intro h
    have hg := congrArg ECPoint.h h
    simp only [ZKCurve.H] at hg
    exact one_ne_zero hg
  refine ⟨?_, ?_, ?_, ?_, ?_, ?_, ?_, ?_⟩
  · -- Challenge
    intro c' hne
    exact verify_chal_fail hsub (by
      have hre : recomputedChallenge hash {p with Challenge := c'} CM CMTok = p.Challenge := hch
      rw [hre]
      exact fun hq => hne hq.symm)
  · -- T1
    intro T1' hne
    by_cases hch' : recomputedChallenge hash {p with T1 := T1'} CM CMTok = p.Challenge
    · have hfail : ABCProof.Verify hash dverify {p with T1 := T1'} CM CMTok =
          (false, some ABCError.equationOneMismatch) := by
        refine verify_eq1_fail ?_ ?_ ?_
        · exact hsub
        · exact hch'
        · show (CM.Mult p.Challenge).Add T1' ≠ ((ZKCurve.G n).Mult p.j).Add (CMTok.Mult p.k)
          intro h
          exact hne (ptAdd_left_cancel (h.trans heq1.symm))
      rw [hfail]
      exact ⟨rfl, by simp⟩
    · have hfail : ABCProof.Verify hash dverify {p with T1 := T1'} CM CMTok =
          (false, some ABCError.challengeMismatch) := by
        refine verify_chal_fail ?_ ?_
        · exact hsub
        · exact hch'
      rw [hfail]
      exact ⟨rfl, by simp⟩
  · -- T2
    intro T2' hne
    by_cases hch' : recomputedChallenge hash {p with T2 := T2'} CM CMTok = p.Challenge
    · have hfail : ABCProof.Verify hash dverify {p with T2 := T2'} CM CMTok =
          (false, some ABCError.equationTwoMismatch) := by
        refine verify_eq2_fail ?_ ?_ ?_ ?_
        · exact hsub
        · exact hch'
        · exact heq1
        · show (p.C.Mult p.Challenge).Add T2' ≠ (p.B.Mult p.j).Add ((ZKCurve.H n).Mult p.l)
          intro h
          exact hne (ptAdd_left_cancel (h.trans heq2.symm))
      rw [hfail]
      exact ⟨rfl, by simp⟩
    · have hfail : ABCProof.Verify hash dverify {p with T2 := T2'} CM CMTok =
          (false, some ABCError.challengeMismatch) := by
        refine verify_chal_fail ?_ ?_
        · exact hsub
        · exact hch'
      rw [hfail]
      exact ⟨rfl, by simp⟩
  · -- B
    intro B' hne
    exact verify_chal_fail hsub (fun hq => hhB B' hne hq)
  · -- C
    intro C' hne
    cases hb : dverify ({p with C := C'} : ABCProof n DP).disjuncAC CM CMTok (ZKCurve.H n)
        (({p with C := C'} : ABCProof n DP).C.Sub (ZKCurve.G n)) with
    | false =>
        rw [verify_sub_fail hb]
        exact ⟨rfl, by simp⟩
    | true =>
        have hfail : ABCProof.Verify hash dverify {p with C := C'} CM CMTok =
            (false, some ABCError.challengeMismatch) := by
          refine verify_chal_fail ?_ ?_
          · exact hb
          · exact fun hq => hhC C' hne hq
        rw [hfail]
        exact ⟨rfl, by simp⟩
  · -- j
    intro j'
    constructor
    · intro hne
      refine verify_eq1_fail ?_ ?_ ?_
      · exact hsub
      · exact hch
      · show (CM.Mult p.Challenge).Add p.T1 ≠ ((ZKCurve.G n).Mult j').Add (CMTok.Mult p.k)
        rw [heq1]
        intro h
        exact mult_inj hp hG (Ne.symm hne) (ptAdd_right_cancel h)
    · intro hcong
      rw [verify_true_iff]
      refine ⟨?_, ?_, ?_, ?_⟩
      · exact hsub
      · exact hch
      · show (CM.Mult p.Challenge).Add p.T1 = ((ZKCurve.G n).Mult j').Add (CMTok.Mult p.k)
        rw [mult_congr (ZKCurve.G n) hcong]
        exact heq1
      · show (p.C.Mult p.Challenge).Add p.T2 = (p.B.Mult j').Add ((ZKCurve.H n).Mult p.l)
        rw [mult_congr p.B hcong]
        exact heq2
  · -- k
    intro k'
    constructor
    · intro hne
      refine verify_eq1_fail ?_ ?_ ?_
      · exact hsub
      · exact hch
      · show (CM.Mult p.Challenge).Add p.T1 ≠ ((ZKCurve.G n).Mult p.j).Add (CMTok.Mult k')
        rw [heq1]
        intro h
        exact mult_inj hp hTok (Ne.symm hne) (ptAdd_left_cancel h)
    · intro hcong
      rw [verify_true_iff]
      refine ⟨?_, ?_, ?_, ?_⟩
      · exact hsub
      · exact hch
      · show (CM.Mult p.Challenge).Add p.T1 = ((ZKCurve.G n).Mult p.j).Add (CMTok.Mult k')
        rw [mult_congr CMTok hcong]
        exact heq1
      · exact heq2
  · -- l
    intro l'
    constructor
    · intro hne
      refine verify_eq2_fail ?_ ?_ ?_ ?_
      · exact hsub
      · exact hch
      · exact heq1
      · show (p.C.Mult p.Challenge).Add p.T2 ≠ (p.B.Mult p.j).Add ((ZKCurve.H n).Mult l')
        rw [heq2]
        intro h
        exact mult_inj hp hH (Ne.symm hne) (ptAdd_left_cancel h)
    · intro hcong
      rw [verify_true_iff]
      refine ⟨?_, ?_, ?_, ?_⟩
      · exact hsub
      · exact hch
      · exact heq1
      · show (p.C.Mult p.Challenge).Add p.T2 = (p.B.Mult p.j).Add ((ZKCurve.H n).Mult l')
        rw [mult_congr (ZKCurve.H n) hcong]
        exact heq2

theorem abc_tamper_sensitivity_amended_witness :
    c2proof.Verify tHash cVerify11 c2CM c2Tok = (true, none)
    ∧ c2Tok ≠ (⟨0, 0⟩ : ECPoint 11)
    ∧ ABCProof.Verify tHash cVerify11 {c2proof with Challenge := 7} c2CM c2Tok =
        (false, some ABCError.challengeMismatch)
    ∧ ABCProof.Verify tHash cVerify11 {c2proof with B := ⟨5, 5⟩} c2CM c2Tok =
        (false, some ABCError.challengeMismatch)
    ∧ ABCProof.Verify tHash cVerify11 {c2proof with j := c2proof.j + 1} c2CM c2Tok =
        (false, some ABCError.equationOneMismatch)
    ∧ ABCProof.Verify tHash cVerify11 {c2proof with l := c2proof.l + 11} c2CM c2Tok =
        (true, none) := by
  have H := abc_tamper_sensitivity_amended (by norm_num) tHash cVerify11 c2proof c2CM c2Tok
    (by decide) (by decide)
    (by
      intro B' hne h
      simp only [recomputedChallenge, tHash] at h
      split_ifs at h with hl
      · apply hne
        have ht : tList =
            [ZKCurve.G 11, ZKCurve.H 11, c2CM, c2Tok, c2proof.B, c2proof.C, c2proof.T1,
              c2proof.T2] := rfl
        rw [ht] at hl
        simp at hl
        exact hl
      · have hc : c2proof.Challenge = (2 : ℤ) := by decide
        rw [hc] at h
        norm_num at h)
    (by
      intro C' hne h
      simp only [recomputedChallenge, tHash] at h
      split_ifs at h with hl
      · apply hne
        have ht : tList =
            [ZKCurve.G 11, ZKCurve.H 11, c2CM, c2Tok, c2proof.B, c2proof.C, c2proof.T1,
              c2proof.T2] := rfl
        rw [ht] at hl
        simp at hl
        exact hl
      · have hc : c2proof.Challenge = (2 : ℤ) := by decide
        rw [hc] at h
        norm_num at h)
  exact ⟨by decide, by decide,
    H.1 7 (by decide),
    H.2.2.2.1 ⟨5, 5⟩ (by decide),
    (H.2.2.2.2.2.1 (c2proof.j + 1)).1 (by decide),
    (H.2.2.2.2.2.2.2 (c2proof.l + 11)).2 (by decide)⟩

end ZKSigma
